import Mathlib

/-!
Verification of the async-loop micro-benchmark repository.

The repository contains `src/mir_demo.rs` (the `async_work`, `with_check`,
`no_check` futures) and `benches/async_loops.rs` (the `async_loop_with_await`,
`async_loop_with_sleep`, `async_loop_boxed` futures and the guarded/unguarded
benchmark drivers). Each `async fn` is embedded as the explicit poll-driven
state machine that the compiler synthesizes for it — the basic-block structure
of that machine is documented in the large comment of `benches/async_loops.rs`
(`into_iter`, `next`, discriminant switch, `Poll::Ready` / suspension).
Driving a machine to completion is a fueled iteration of its poll function.
-/

namespace AsyncLoopPerf

/-- Kind of a suspension point: cooperative yield (`tokio::task::yield_now`)
or a timer sleep (`tokio::time::sleep`) with a duration in nanoseconds. -/
inductive SuspensionKind where
  | yieldNow
  | timerSleep (durationNanos : Nat)
deriving DecidableEq, Repr

/-- Result of one `poll` call: `Ready` or `Pending` at a suspension point. -/
inductive PollRes where
  | ready
  | pending (k : SuspensionKind)
deriving DecidableEq, Repr

/-- State of the compiler-synthesized machine for `async_loop_with_await` /
`async_loop_with_sleep` (`for item in data { <suspend>.await; black_box(item) }`):
not yet polled; suspended at the await with `item` pending its `black_box`
visit and `rest` still to be iterated; or completed. -/
inductive LoopState where
  | notStarted (data : List Int)
  | suspended (item : Int) (rest : List Int)
  | completed
deriving DecidableEq, Repr

/-- Instrumented outcome of a single `poll`: how many sequence cursors
(iterators) were constructed during this poll, how many `next` ("has more")
calls were made, which elements were visited (`black_box`), the poll result,
and the successor state. -/
structure PollStep where
  cursors : Nat
  nextCalls : Nat
  visits : List Int
  res : PollRes
  next : LoopState
deriving DecidableEq, Repr

/-- One `poll` of the loop future, from the desugaring documented in the
source's MIR comment: the first poll builds the iterator (`into_iter`) and
calls `next`; if `None` it returns `Ready`, if `Some item` it polls the
suspension primitive, which returns `Pending`. A resumed poll completes the
await, visits the pending item (`black_box`), calls `next` again and either
finishes or suspends at the next element. Polling after completion hits the
compiler-generated trap arm; modelled from the spec: polling after `Ready`
signals a usage error (the generated machine is not under `src/`). -/
def asyncLoopPoll (k : SuspensionKind) : LoopState → Except String PollStep
  | .notStarted data =>
      match data with
      | [] => .ok ⟨1, 1, [], .ready, .completed⟩
      | item :: rest => .ok ⟨1, 1, [], .pending k, .suspended item rest⟩
  | .suspended item rest =>
      match rest with
      | [] => .ok ⟨0, 1, [item], .ready, .completed⟩
      | i2 :: r2 => .ok ⟨0, 1, [item], .pending k, .suspended i2 r2⟩
  | .completed => .error "async fn resumed after completion"

/-- Totals observed while driving a computation to completion. -/
structure Totals where
  constructions : Nat
  cursors : Nat
  nextCalls : Nat
  visits : List Int
  pendings : Nat
  polls : Nat
deriving DecidableEq, Repr

/-- Drive the loop machine to completion with the given fuel, accumulating the
instrumentation of every poll; `none` when fuel runs out (or on the
poll-after-completion trap, which a well-formed drive never hits). -/
def driveLoop (k : SuspensionKind) : Nat → LoopState → Option Totals
  | 0, _ => none
  | fuel + 1, s =>
      match asyncLoopPoll k s with
      | .error _ => none
      | .ok step =>
          match step.res with
          | .ready =>
              some ⟨0, step.cursors, step.nextCalls, step.visits, 0, 1⟩
          | .pending _ =>
              match driveLoop k fuel step.next with
              | none => none
              | some t =>
                  some ⟨0, step.cursors + t.cursors, step.nextCalls + t.nextCalls,
                        step.visits ++ t.visits, t.pendings + 1, t.polls + 1⟩

/-- The unguarded benchmark path (`no_check` in `bench_empty_check`): always
construct the loop future (one computation construction) and drive it to
completion. Fuel `data.length + 1` is exactly the number of polls needed. -/
def runUnguarded (k : SuspensionKind) (data : List Int) : Option Totals :=
  (driveLoop k (data.length + 1) (.notStarted data)).map
    (fun t => { t with constructions := 1 })

/-- The guarded benchmark path (`with_check` in `bench_empty_check`):
`if !data.is_empty() { async_loop_with_await(data.clone()).await }` — on an
empty sequence nothing is constructed, polled or iterated; otherwise the path
is exactly the unguarded one. -/
def runGuarded (k : SuspensionKind) (data : List Int) : Option Totals :=
  if data.isEmpty then some ⟨0, 0, 0, [], 0, 0⟩ else runUnguarded k data

/-- Observables compared across the guard settings: the visited elements in
order and the number of suspension points; a `some` result means the drive
reached `Ready` (final state `completed`). -/
def obsOf (t : Totals) : List Int × Nat := (t.visits, t.pendings)

/-- Forward rank of a loop-machine state: `notStarted` before `suspended`
before `completed`. -/
def rank : LoopState → Nat
  | .notStarted _ => 0
  | .suspended _ _ => 1
  | .completed => 2

/-- Generic fueled driver over any poll function (the shared `poll` contract
of §4.2): collects the visits and counts the `Pending` polls; `some` means the
computation reached `Ready` within the fuel. -/
def driveG {σ : Type} (pollF : σ → Except String (List Int × PollRes × σ)) :
    Nat → σ → Option (List Int × Nat)
  | 0, _ => none
  | fuel + 1, s =>
      match pollF s with
      | .error _ => none
      | .ok (vs, .ready, _) => some (vs, 0)
      | .ok (vs, .pending _, s2) =>
          (driveG pollF fuel s2).map (fun r => (vs ++ r.1, r.2 + 1))

/-- Heap-indirected handle around a computation's state (`Box::pin`): the
state lives behind one owned indirection, allocated at construction. -/
structure BoxedHandle (σ : Type) where
  contents : σ
deriving DecidableEq, Repr

/-- Polling a boxed computation delegates to the inner poll function through
the indirection (`Pin<Box<F>>: Future` forwards `poll`). -/
def boxPoll {σ : Type} (pollF : σ → Except String (List Int × PollRes × σ))
    (b : BoxedHandle σ) : Except String (List Int × PollRes × BoxedHandle σ) :=
  match pollF b.contents with
  | .error e => .error e
  | .ok (vs, r, s2) => .ok (vs, r, ⟨s2⟩)

/-- State machine of `async_loop_boxed`
(`if data.is_empty() { return } tokio::task::yield_now().await`). -/
inductive BoxedLoopState where
  | start (data : List Int)
  | afterYield
  | done
deriving DecidableEq, Repr

/-- One poll of `async_loop_boxed`: empty input returns `Ready` at once,
otherwise the single `yield_now().await` suspends once; the resumed poll
completes. The trap arm for polling after completion is modelled from the
spec (compiler-generated machine, not under `src/`). -/
def asyncLoopBoxedPoll : BoxedLoopState → Except String (List Int × PollRes × BoxedLoopState)
  | .start data =>
      if data.isEmpty then .ok ([], .ready, .done)
      else .ok ([], .pending .yieldNow, .afterYield)
  | .afterYield => .ok ([], .ready, .done)
  | .done => .error "async fn resumed after completion"

/-- Poll of the future returned by `mir_demo::async_work` (`pub async fn
async_work() {}`): the body is empty, so the very first poll is `Ready`. -/
def asyncWorkPoll : PollRes := .ready

/-- State machine of `mir_demo::no_check`
(`for _ in data { async_work().await }`): not yet polled; suspended inside an
`async_work().await` with `rest` still to iterate; or completed. -/
inductive NoCheckState where
  | start (data : List Int)
  | awaiting (rest : List Int)
  | done
deriving DecidableEq, Repr

/-- The loop body of `no_check` inside a single poll: call `next`; on `Some`
poll the freshly created `async_work` future — if that were `Pending` the
whole machine would suspend, but `asyncWorkPoll` is `Ready`, so control stays
in the loop until the iterator is exhausted. -/
def noCheckLoop : List Int → List Int × PollRes × NoCheckState
  | [] => ([], .ready, .done)
  | _ :: rest =>
      match asyncWorkPoll with
      | .ready => noCheckLoop rest
      | .pending k => ([], .pending k, .awaiting rest)

/-- One poll of `no_check`: the first poll builds the iterator and runs the
loop; a resumed poll re-polls the stored `async_work` future and continues the
loop. The trap arm is modelled from the spec (compiler-generated). -/
def noCheckPoll : NoCheckState → Except String (List Int × PollRes × NoCheckState)
  | .start data => .ok (noCheckLoop data)
  | .awaiting rest =>
      match asyncWorkPoll with
      | .ready => .ok (noCheckLoop rest)
      | .pending k => .ok ([], .pending k, .awaiting rest)
  | .done => .error "async fn resumed after completion"

/-- State machine of `mir_demo::with_check`
(`if !data.is_empty() { async_work().await }`). -/
inductive WithCheckState where
  | start (data : List Int)
  | awaiting
  | done
deriving DecidableEq, Repr

/-- One poll of `with_check`: the first poll checks `is_empty` (the fast path
returns `Ready` directly) and otherwise awaits `async_work`, whose first poll
is already `Ready`. The trap arm is modelled from the spec
(compiler-generated). -/
def withCheckPoll : WithCheckState → Except String (List Int × PollRes × WithCheckState)
  | .start data =>
      if data.isEmpty then .ok ([], .ready, .done)
      else
        match asyncWorkPoll with
        | .ready => .ok ([], .ready, .done)
        | .pending k => .ok ([], .pending k, .awaiting)
  | .awaiting =>
      match asyncWorkPoll with
      | .ready => .ok ([], .ready, .done)
      | .pending k => .ok ([], .pending k, .awaiting)
  | .done => .error "async fn resumed after completion"

/-- A timer suspension as recorded by the executor: the monotonic clock value
at suspension time, the requested duration, and the clock value at which the
computation was polled again. -/
structure TimerEvent where
  suspendedAt : Nat
  durationNanos : Nat
  resumedAt : Nat
deriving DecidableEq, Repr

/-- Modelled from the spec: the single-computation executor drive with a
monotonic clock (§4.6 step 2, §5) — the executor itself is the external tokio
runtime, not under `src/`. On `Pending(Timer(d))` the executor waits at least
until `now() + d`; `slack` supplies the arbitrary extra scheduling delay
(no upper bound is promised), consumed one entry per suspension. On
`Pending(Yield)` the clock advances only by the slack. Returns the recorded
timer events and the final clock value. -/
def timedDrive (k : SuspensionKind) (slack : List Nat) :
    Nat → Nat → LoopState → Option (List TimerEvent × Nat)
  | 0, _, _ => none
  | fuel + 1, clock, s =>
      match asyncLoopPoll k s with
      | .error _ => none
      | .ok step =>
          match step.res with
          | .ready => some ([], clock)
          | .pending .yieldNow =>
              timedDrive k slack.tail fuel (clock + slack.headD 0) step.next
          | .pending (.timerSleep dur) =>
              (timedDrive k slack.tail fuel (clock + dur + slack.headD 0) step.next).map
                (fun r => (⟨clock, dur, clock + dur + slack.headD 0⟩ :: r.1, r.2))

/-! Helper lemmas -/

/-- Driving the loop machine from a `suspended` state: one poll per remaining
element plus the terminal poll, visiting `item :: rest` in order. -/
theorem driveLoop_suspended (k : SuspensionKind) (item : Int) (rest : List Int) :
    driveLoop k (rest.length + 1) (.suspended item rest) =
      some ⟨0, 0, rest.length + 1, item :: rest, rest.length, rest.length + 1⟩ := by
  induction rest generalizing item with
  | nil => rfl
  | cons i2 r2 ih =>
      have hstep : driveLoop k ((i2 :: r2).length + 1) (.suspended item (i2 :: r2)) =
          match driveLoop k (r2.length + 1) (.suspended i2 r2) with
          | none => none
          | some t => some ⟨0, 0 + t.cursors, 1 + t.nextCalls, [item] ++ t.visits,
              t.pendings + 1, t.polls + 1⟩ := rfl
      rw [hstep, ih i2]
      simp [Nat.add_comm]

/-- Driving the loop machine from `notStarted` on `data`: one cursor, one
`next` call per poll (`data.length + 1` of them, the last returning no
element), each element visited in order, one suspension per element, and
`data.length + 1` polls, the last returning `Ready`. -/
theorem driveLoop_run (k : SuspensionKind) (data : List Int) :
    driveLoop k (data.length + 1) (.notStarted data) =
      some ⟨0, 1, data.length + 1, data, data.length, data.length + 1⟩ := by
  cases data with
  | nil => rfl
  | cons a rest =>
      have hstep : driveLoop k ((a :: rest).length + 1) (.notStarted (a :: rest)) =
          match driveLoop k (rest.length + 1) (.suspended a rest) with
          | none => none
          | some t => some ⟨0, 1 + t.cursors, 1 + t.nextCalls, [] ++ t.visits,
              t.pendings + 1, t.polls + 1⟩ := rfl
      rw [hstep, driveLoop_suspended k a rest]
      simp [Nat.add_comm]

/-- `async_work` never suspends, so the inline loop of `no_check` runs to the
end of the iterator within the first poll and returns `Ready`. -/
theorem noCheckLoop_ready (data : List Int) :
    noCheckLoop data = ([], .ready, .done) := by
  induction data with
  | nil => rfl
  | cons a rest ih => simp [noCheckLoop, asyncWorkPoll, ih]

/-- Driving `no_check` needs exactly one poll: no visits, no suspensions. -/
theorem driveG_noCheck (data : List Int) :
    driveG noCheckPoll 1 (.start data) = some ([], 0) := by
  simp [driveG, noCheckPoll, noCheckLoop_ready]

/-- Driving `with_check` needs exactly one poll: no visits, no suspensions. -/
theorem driveG_withCheck (data : List Int) :
    driveG withCheckPoll 1 (.start data) = some ([], 0) := by
  by_cases h : data.isEmpty <;> simp [driveG, withCheckPoll, asyncWorkPoll, h]

/-- Driving through the boxed handle observes exactly what driving the inner
computation observes, for every poll function, fuel and start state. -/
theorem driveG_box {σ : Type} (pollF : σ → Except String (List Int × PollRes × σ))
    (fuel : Nat) (s : σ) :
    driveG (boxPoll pollF) fuel ⟨s⟩ = driveG pollF fuel s := by
  induction fuel generalizing s with
  | zero => rfl
  | succ fuel ih =>
      simp only [driveG, boxPoll]
      cases h : pollF s with
      | error e => rfl
      | ok out =>
          obtain ⟨vs, r, s2⟩ := out
          cases r with
          | ready => rfl
          | pending k => simp [ih s2]

/-! Claim theorems -/

/-- C1: Guard equivalence — for every suspension kind and every input
sequence, the guarded and the unguarded benchmark paths produce the identical
sequence of visited elements in order, the identical number of suspension
points, and the identical completion (both drives reach `Ready`); likewise
`mir_demo`'s `with_check` and `no_check` have identical observables on every
input. Only constructions, polls and cursor work may differ. -/
theorem guard_equivalence (k : SuspensionKind) (data : List Int) :
    (runGuarded k data).map obsOf = (runUnguarded k data).map obsOf ∧
      driveG withCheckPoll 1 (WithCheckState.start data) =
        driveG noCheckPoll 1 (NoCheckState.start data) := by
  constructor
  · cases data with
    | nil => rfl
    | cons a rest => rfl
  · rw [driveG_withCheck, driveG_noCheck]

/-- C2: Suspension-point count — for every non-empty input sequence of length
L, driving the loop future to completion emits exactly L suspension points
(one per element, each element visited) and takes exactly L + 1 polls, the
last returning `Ready`; the guarded path is identical to the unguarded one,
so the count is independent of the guard. -/
theorem suspension_count (k : SuspensionKind) (data : List Int) (h : data ≠ []) :
    runUnguarded k data =
        some ⟨1, 1, data.length + 1, data, data.length, data.length + 1⟩ ∧
      runGuarded k data = runUnguarded k data := by
  constructor
  · simp [runUnguarded, driveLoop_run]
  · cases data with
    | nil => exact absurd rfl h
    | cons a rest => rfl

/-- C2 witness: the concrete sequence `[3, 4]` is non-empty and yields exactly
2 suspension points and 3 polls, identically under both guard settings. -/
theorem suspension_count_spot :
    ([3, 4] : List Int) ≠ [] ∧
      (runUnguarded .yieldNow [3, 4] = some ⟨1, 1, 3, [3, 4], 2, 3⟩ ∧
        runGuarded .yieldNow [3, 4] = runUnguarded .yieldNow [3, 4]) :=
  ⟨by decide, suspension_count .yieldNow [3, 4] (by decide)⟩

/-- C3: Allocation-variant equivalence — driving any computation through the
heap-indirected handle (`Box::pin`) observes exactly the visits, suspension
count and completion of driving the stack-resident computation, for every
poll function, fuel and start state; concretely, `async_loop_boxed` on a
one-element sequence produces one suspension point then `Ready` in both
representations. -/
theorem allocation_variant_equivalence :
    (∀ (σ : Type) (pollF : σ → Except String (List Int × PollRes × σ))
        (fuel : Nat) (s : σ),
        driveG (boxPoll pollF) fuel ⟨s⟩ = driveG pollF fuel s) ∧
      driveG (boxPoll asyncLoopBoxedPoll) 2 ⟨BoxedLoopState.start [1]⟩ = some ([], 1) ∧
      driveG asyncLoopBoxedPoll 2 (BoxedLoopState.start [1]) = some ([], 1) :=
  ⟨fun _ pollF fuel s => driveG_box pollF fuel s, rfl, rfl⟩

/-- C4: Zero-length, unguarded — on the empty sequence with the guard off,
exactly one computation is constructed, exactly one cursor is built, its
"has more" check runs exactly once (finding no element: no visits), zero
suspension points are emitted, and exactly one terminal poll returns
`Ready`. -/
theorem zero_length_unguarded (k : SuspensionKind) :
    runUnguarded k [] = some ⟨1, 1, 1, [], 0, 1⟩ := rfl

/-- C5: Zero-length, guarded — on the empty sequence with the guard on, zero
computations are constructed, zero cursors are built, zero `next` calls are
made, zero suspension points are emitted and zero polls occur: the guard
returns the terminal result directly. -/
theorem zero_length_guarded (k : SuspensionKind) :
    runGuarded k [] = some ⟨0, 0, 0, [], 0, 0⟩ := rfl

/-- C6: Poll-after-Ready is a signalled usage error — whenever a poll returns
`Ready`, the successor state is `completed`, and polling it again signals the
usage-error trap and never returns an ordinary `.ok` result. -/
theorem poll_after_ready_signals (k : SuspensionKind) (s : LoopState) (step : PollStep)
    (hok : asyncLoopPoll k s = .ok step) (hready : step.res = .ready) :
    asyncLoopPoll k step.next = .error "async fn resumed after completion" ∧
      ∀ step2, asyncLoopPoll k step.next ≠ .ok step2 := by
  have hnext : step.next = LoopState.completed := by
    cases s with
    | notStarted data =>
        cases data with
        | nil => injection hok with h; rw [← h]
        | cons a rest => injection hok with h; rw [← h] at hready; simp at hready
    | suspended item rest =>
        cases rest with
        | nil => injection hok with h; rw [← h]
        | cons i2 r2 => injection hok with h; rw [← h] at hready; simp at hready
    | completed => exact absurd hok (by simp [asyncLoopPoll])
  rw [hnext]
  exact ⟨rfl, fun step2 hc => by simp [asyncLoopPoll] at hc⟩

/-- C6 witness: after the terminal `Ready` poll of the empty-sequence run, the
completed state signals on any further poll. -/
theorem poll_after_ready_signals_spot :
    asyncLoopPoll .yieldNow LoopState.completed =
        .error "async fn resumed after completion" ∧
      ∀ step2, asyncLoopPoll .yieldNow LoopState.completed ≠ .ok step2 :=
  poll_after_ready_signals .yieldNow (.notStarted []) ⟨1, 1, [], .ready, .completed⟩
    rfl rfl

/-- C7: Forward-only state machine — every successful poll transition moves
the state weakly forward along `notStarted → suspended → completed` (ranks
0, 1, 2), and no successful poll starts from `completed`, so no transition
leaves `completed` or returns to an earlier state. -/
theorem forward_only_transitions (k : SuspensionKind) (s : LoopState) (step : PollStep)
    (hok : asyncLoopPoll k s = .ok step) :
    rank s ≤ rank step.next ∧ s ≠ LoopState.completed := by
  cases s with
  | notStarted data => exact ⟨Nat.zero_le _, by simp⟩
  | suspended item rest =>
      refine ⟨?_, by simp⟩
      cases rest with
      | nil => injection hok with h; rw [← h]; exact Nat.le_succ 1
      | cons i2 r2 => injection hok with h; rw [← h]; exact Nat.le_refl 1
  | completed => exact absurd hok (by simp [asyncLoopPoll])

/-- C7 witness: the terminal transition of a one-element run moves forward
from `suspended` to `completed`. -/
theorem forward_only_transitions_spot :
    rank (LoopState.suspended 1 []) ≤ rank LoopState.completed ∧
      LoopState.suspended 1 [] ≠ LoopState.completed :=
  forward_only_transitions .yieldNow (.suspended 1 []) ⟨0, 1, [1], .ready, .completed⟩ rfl

/-- C8: Timer lower bound — in the timed executor drive, every recorded timer
suspension of duration d is resumed no earlier than the monotonic clock value
at suspension time plus d, for every duration, every slack (no upper bound on
the extra delay) and every run. -/
theorem timer_lower_bound (k : SuspensionKind) (slack : List Nat)
    (fuel clock : Nat) (s : LoopState) (evts : List TimerEvent) (c : Nat)
    (h : timedDrive k slack fuel clock s = some (evts, c)) :
    ∀ e ∈ evts, e.suspendedAt + e.durationNanos ≤ e.resumedAt := by
  induction fuel generalizing slack clock s evts c with
  | zero => simp [timedDrive] at h
  | succ fuel ih =>
      rw [timedDrive] at h
      split at h
      · simp at h
      · split at h
        · simp only [Option.some.injEq, Prod.mk.injEq] at h
          obtain ⟨h1, _⟩ := h
          subst h1
          intro e he
          cases he
        · exact ih _ _ _ _ _ h
        · rcases Option.map_eq_some'.mp h with ⟨⟨evts2, c2⟩, h2, hpair⟩
          simp only [Prod.mk.injEq] at hpair
          obtain ⟨h1, _⟩ := hpair
          subst h1
          intro e he
          rcases List.mem_cons.mp he with he1 | he2
          · subst he1
            exact Nat.le_add_right _ _
          · exact ih _ _ _ _ _ h2 e he2

/-- C8 witness: a 1µs (1000 ns) sleep suspended at clock 0 with 7 ns of
executor slack is resumed at 1007 ≥ 0 + 1000. -/
theorem timer_lower_bound_spot :
    (⟨0, 1000, 1007⟩ : TimerEvent).suspendedAt +
        (⟨0, 1000, 1007⟩ : TimerEvent).durationNanos ≤
      (⟨0, 1000, 1007⟩ : TimerEvent).resumedAt :=
  timer_lower_bound (.timerSleep 1000) [7] 2 0 (.notStarted [5]) [⟨0, 1000, 1007⟩] 1007
    rfl ⟨0, 1000, 1007⟩ (List.mem_singleton.mpr rfl)

/-- C9: `async_work` never suspends — its very first poll is `Ready` — and
consequently `mir_demo`'s `with_check` completes within a single poll on every
input, emitting zero suspension points and visiting nothing. -/
theorem with_check_never_pending (data : List Int) :
    asyncWorkPoll = .ready ∧
      driveG withCheckPoll 1 (WithCheckState.start data) = some ([], 0) :=
  ⟨rfl, driveG_withCheck data⟩

/-- C10 counterexample: on the one-element sequence `[0]`, driving
`mir_demo`'s `no_check` to completion performs zero `Pending` polls, not the
one per element the claim requires — the awaited `async_work` is already
`Ready` on its first poll, so the loop never suspends. -/
theorem no_check_single_pending_refuted :
    ¬ (driveG noCheckPoll 2 (NoCheckState.start [0])).map Prod.snd = some 1 := by
  decide

/-- C10 amended: every loop computation is driven to `Ready` in finitely many
polls; `async_loop_with_await` and `async_loop_with_sleep` take exactly L
`Pending` polls (one per element) followed by one terminal `Ready` poll, while
`mir_demo`'s `no_check` completes on its very first poll with zero `Pending`
polls for every input length, because `async_work` never suspends. -/
theorem finite_polls_amended (k : SuspensionKind) (data : List Int) :
    runUnguarded k data =
        some ⟨1, 1, data.length + 1, data, data.length, data.length + 1⟩ ∧
      driveG noCheckPoll 1 (NoCheckState.start data) = some ([], 0) :=
  ⟨by simp [runUnguarded, driveLoop_run], driveG_noCheck data⟩

end AsyncLoopPerf
